import Mathlib

/-!
# Verification of the answer-grading engine

This file gives a shallow embedding, in Lean 4, of the answer-grading engine of
the repository: the local heuristic evaluator, the remote-evaluator response
handling and the evaluation router of `Questionnaire.py`
(class `ReponseAnalyzer`), and the `BaselineGrader` of
`Projet/flaskapp/grader.py`.  Numeric scores are modelled with exact rational
arithmetic (the source uses Python floats; the formulas only involve sums,
products and divisions of small quantities, and no claim depends on
floating-point rounding artefacts).  Strings are modelled by Lean `String`
(a list of unicode code points, matching Python semantics of `len`, `in`,
iteration).  External capabilities (the spaCy similarity model, difflib
sequence matching, Python regular expressions, the Gemini client) are modelled
as explicit functional parameters, so every theorem quantifies over all of
their possible behaviours; concrete instances are supplied where a concrete
computation is required.
-/

namespace Projet

/-! ## TextNormalizer — `ReponseAnalyzer.normaliser_texte`

Source (Questionnaire.py, lines 160-165):
```
texte = texte.lower()
texte = re.sub(r'[^\w\s]', ' ', texte)
texte = ' '.join(texte.split())
```
The embedding works on `List Char` (= `String.data`).  `blanc` models the
whitespace class `\s` (Lean's `Char.isWhitespace`: space, tab, CR, LF) and
`motChar` models the word class `\w`: ASCII alphanumerics, the underscore,
and the Latin-1 Supplement / Latin Extended-A letters (codepoints
`0xC0`-`0x17F` minus the two operators `×` and `÷`), which covers every
letter of French.  Python's classes additionally cover scripts and whitespace
codepoints outside these ranges; every theorem below holds for any fixed
choice of the two character classes. -/

/-- The whitespace character class `\s`. -/
def blanc (c : Char) : Bool := c.isWhitespace

/-- The word character class `\w`: alphanumeric (including accented Latin
letters) or underscore. -/
def motChar (c : Char) : Bool :=
  c.isAlphanum || c == '_' ||
    (decide (0xC0 ≤ c.toNat) && decide (c.toNat ≤ 0x17F) &&
      !(c.toNat == 0xD7) && !(c.toNat == 0xF7))

/-- `texte.lower()` on the underlying character list. -/
def minusculeL (l : List Char) : List Char := l.map Char.toLower

/-- `re.sub(r'[^\w\s]', ' ', texte)`: every character that is neither a word
character nor whitespace is replaced by a space. -/
def remplacePonct (l : List Char) : List Char :=
  l.map (fun c => if motChar c || blanc c then c else ' ')

/-- `texte.split()`: split on runs of whitespace, dropping empty chunks. -/
def decoupeBlancs (l : List Char) : List (List Char) :=
  (l.splitOnP blanc).filter (fun w => !w.isEmpty)

/-- `' '.join(texte.split())` applied after lowering and punctuation
replacement: the full normalization pipeline on character lists. -/
def normL (l : List Char) : List Char :=
  List.intercalate [' '] (decoupeBlancs (remplacePonct (minusculeL l)))

/-- `ReponseAnalyzer.normaliser_texte` (Questionnaire.py, lines 160-165). -/
def normaliser_texte (texte : String) : String := ⟨normL texte.data⟩

/-- `str.lower()` on strings (used by `BaselineGrader`). -/
def minuscules (s : String) : String := ⟨minusculeL s.data⟩

/-! ## Substring containment — Python's `in` operator on strings -/

/-- `estPrefixeDe l g`: the list `l` is an initial segment of `g`. -/
def estPrefixeDe : List Char → List Char → Bool
  | [], _ => true
  | _ :: _, [] => false
  | a :: l, b :: g => a == b && estPrefixeDe l g

/-- `estInclusDans l g`: `l` occurs contiguously inside `g` — Python's
`l in g` on strings (the empty string is contained in everything). -/
def estInclusDans : List Char → List Char → Bool
  | l, [] => l.isEmpty
  | l, g@(_ :: gs) => estPrefixeDe l g || estInclusDans l gs

/-! ## KeywordExtractor — `ReponseAnalyzer.extraire_mots_cles`

The spaCy branch (lemmatize, keep NOUN/VERB/ADJ, drop stop words) depends on
the external linguistic model; the analyzer functions below therefore take the
keyword extractor as a parameter `kw : String → Finset String` (the source
returns a Python `set`).  The model-free fallback branch is concrete source
code and is embedded here for use as a concrete instance. -/

/-- The fixed stop-word set of the fallback branch (Questionnaire.py,
lines 178-179). -/
def stop_words : List String :=
  ["le", "la", "les", "un", "une", "des", "de", "du",
   "à", "et", "ou", "est", "sont", "dans", "sur", "pour"]

/-- The fallback branch of `ReponseAnalyzer.extraire_mots_cles`
(Questionnaire.py, lines 175-180): normalize, split on whitespace, keep the
tokens longer than 3 characters that are not stop words, as a set. -/
def extraire_mots_cles_basic (texte : String) : Finset String :=
  (((decoupeBlancs (normaliser_texte texte).data).map
      (fun w => (⟨w⟩ : String))).filter
    (fun mot => 3 < mot.length && !(stop_words.contains mot))).toFinset

/-! ## RequirementChecker — `verifier_presence_elements` and `detecter_erreurs` -/

/-- The three-way classification of the required points, mirroring the
dictionary `{'presents': [], 'absents': [], 'partiels': []}` built by
`verifier_presence_elements`. -/
structure VerifElements where
  presents : List String
  partiels : List String
  absents : List String
deriving DecidableEq

/-- The classification loop of `verifier_presence_elements`
(Questionnaire.py, lines 207-216): each required element is appended, in
iteration order, to exactly one of the three lists — `presents` when the
direct-match test fires, else `partiels` when the partial test fires, else
`absents`. -/
def verifier_boucle (pres part : String → Bool) : List String → VerifElements
  | [] => ⟨[], [], []⟩
  | element :: reste =>
    let r := verifier_boucle pres part reste
    if pres element then ⟨element :: r.presents, r.partiels, r.absents⟩
    else if part element then ⟨r.presents, element :: r.partiels, r.absents⟩
    else ⟨r.presents, r.partiels, element :: r.absents⟩

/-- `ReponseAnalyzer.verifier_presence_elements` (Questionnaire.py,
lines 196-218), parameterized by the keyword extractor `kw`
(`extraire_mots_cles`).  The direct test is `element_norm in reponse_norm`;
the partial test requires a nonempty keyword set for the element whose
intersection with the answer's keyword set has size at least 70% of the
element's keyword-set size (`len(a & b) >= len(a) * 0.7`). -/
def verifier_presence_elements (kw : String → Finset String)
    (reponse_user : String) (elements_requis : List String) : VerifElements :=
  let reponse_norm := (normaliser_texte reponse_user).data
  let mots_cles_reponse := kw reponse_user
  verifier_boucle
    (fun element => estInclusDans (normaliser_texte element).data reponse_norm)
    (fun element =>
      let mots_cles_element := kw element
      decide mots_cles_element.Nonempty &&
        decide ((mots_cles_element.card : ℚ) * (7 / 10) ≤
          ((mots_cles_element ∩ mots_cles_reponse).card : ℚ)))
    elements_requis

/-- `ReponseAnalyzer.detecter_erreurs` (Questionnaire.py, lines 220-230): the
forbidden phrases whose normalization occurs in the normalized answer, in
iteration order. -/
def detecter_erreurs (reponse_user : String) (erreurs_a_eviter : List String) :
    List String :=
  let reponse_norm := (normaliser_texte reponse_user).data
  erreurs_a_eviter.filter
    (fun erreur => estInclusDans (normaliser_texte erreur).data reponse_norm)

/-! ## LocalScoreAggregator — `evaluer_reponse_local`

`round(x, 1)` / `round(x, 2)` round to the nearest tenth / hundredth.
Python rounds exact ties to even; Mathlib's `round` rounds exact ties up.
The two agree except on exact half-tenth (resp. half-hundredth) ties, and no
claim depends on the direction of an exact tie. -/

/-- `round(q, 1)`: round to one decimal place (computably, via `Rat.floor`;
`arrondi1_eq_round` below identifies it with Mathlib's `round`). -/
def arrondi1 (q : ℚ) : ℚ := ((10 * q + 1 / 2).floor : ℚ) / 10

/-- `round(q, 2)`: round to two decimal places. -/
def arrondi2 (q : ℚ) : ℚ := ((100 * q + 1 / 2).floor : ℚ) / 100

/-- The result dictionary produced by the evaluation paths of
`ReponseAnalyzer` (the `EvaluationResult` of the specification). -/
structure Resultats where
  est_correct : Bool
  score : ℚ
  similarite : ℚ
  elements_presents : List String
  elements_partiels : List String
  elements_absents : List String
  erreurs_detectees : List String
  suggestions : List String
deriving DecidableEq

/-- The fields of the `question_data` dictionary read by the evaluator
(with the `.get` defaults of the source already applied: empty text, empty
lists). -/
structure QuestionData where
  reponse_attendue : String
  points_obligatoires : List String
  erreurs_a_eviter : List String

/-- `ReponseAnalyzer._generer_suggestions` (Questionnaire.py, lines 372-388):
one line for up to 3 missing points, one for up to 2 partial points, one for
up to 2 detected errors, and a positive line only when none of those fired. -/
def generer_suggestions (verification_elements : VerifElements)
    (erreurs_detectees : List String) : List String :=
  let s1 := if verification_elements.absents.isEmpty then []
    else ["⚠️ Pensez à mentionner : " ++
      String.intercalate ", " (verification_elements.absents.take 3)]
  let s2 := if verification_elements.partiels.isEmpty then []
    else ["📝 Développez davantage : " ++
      String.intercalate ", " (verification_elements.partiels.take 2)]
  let s3 := if erreurs_detectees.isEmpty then []
    else ["❌ Évitez de mentionner : " ++
      String.intercalate ", " (erreurs_detectees.take 2)]
  let suggestions := s1 ++ s2 ++ s3
  if suggestions.isEmpty then
    ["✅ Excellente réponse ! Tous les points importants sont couverts."]
  else suggestions

/-- `ReponseAnalyzer.evaluer_reponse_local` (Questionnaire.py, lines 327-370),
parameterized by the similarity scorer `sim` (`calculer_similarite`: spaCy
vector similarity when the linguistic model is available, otherwise the
difflib `SequenceMatcher` ratio of the normalized texts — an external
computation returning a ratio, modelled as a functional parameter) and the
keyword extractor `kw` (`extraire_mots_cles`). -/
def evaluer_reponse_local (sim : String → String → ℚ)
    (kw : String → Finset String) (question_data : QuestionData)
    (reponse_user : String) : Resultats :=
  let similarite := sim reponse_user question_data.reponse_attendue
  let verification_elements :=
    verifier_presence_elements kw reponse_user question_data.points_obligatoires
  let erreurs_trouvees :=
    detecter_erreurs reponse_user question_data.erreurs_a_eviter
  let score_base := similarite * 100
  let score_base :=
    if question_data.points_obligatoires.isEmpty then score_base
    else
      let taux_elements :=
        ((verification_elements.presents.length : ℚ) +
          (verification_elements.partiels.length : ℚ) * (1 / 2)) /
          (question_data.points_obligatoires.length : ℚ)
      score_base * (2 / 5) + taux_elements * 60
  let penalite_erreurs : ℚ := (erreurs_trouvees.length : ℚ) * 10
  let score_final := max 0 (score_base - penalite_erreurs)
  { est_correct := decide (60 ≤ score_final) && erreurs_trouvees.isEmpty &&
      verification_elements.absents.isEmpty
  , score := arrondi1 score_final
  , similarite := arrondi1 (similarite * 100)
  , elements_presents := verification_elements.presents
  , elements_partiels := verification_elements.partiels
  , elements_absents := verification_elements.absents
  , erreurs_detectees := erreurs_trouvees
  , suggestions := generer_suggestions verification_elements erreurs_trouvees }

/-! ## RemoteEvaluator — `evaluer_reponse_gemini`

The remote call itself (`generate_content`) is external I/O; what the source
contributes is the handling of its textual response: `json.loads`, then a
sequence of `setdefault` calls, returning the defaulted dictionary, with any
parse failure re-raised.  A response is modelled at the `json.loads` boundary:
`none` stands for a response that does not parse as a usable JSON object
(`json.JSONDecodeError` / `AttributeError` / `ValueError`), `some j` for a
parsed object whose recognized optional keys are the fields of `GeminiJson`. -/

/-- A parsed remote JSON object: each recognized key is optional. -/
structure GeminiJson where
  score : Option ℚ
  est_correct : Option Bool
  similarite : Option ℚ
  elements_presents : Option (List String)
  elements_partiels : Option (List String)
  elements_absents : Option (List String)
  erreurs_detectees : Option (List String)
  suggestions : Option (List String)
deriving DecidableEq

/-- The `setdefault` block of `evaluer_reponse_gemini` (Questionnaire.py,
lines 307-315): `est_correct` defaults to `resultats.get('score', 0) >= 60`
(computed from the score key as supplied, before the score itself is
defaulted), `similarite` to 0, the four lists to `[]`, `suggestions` to a
fixed one-line list, and `score` to 0. -/
def appliquer_defauts (resultats : GeminiJson) : Resultats :=
  { est_correct := resultats.est_correct.getD (decide (60 ≤ resultats.score.getD 0))
  , score := resultats.score.getD 0
  , similarite := resultats.similarite.getD 0
  , elements_presents := resultats.elements_presents.getD []
  , elements_partiels := resultats.elements_partiels.getD []
  , elements_absents := resultats.elements_absents.getD []
  , erreurs_detectees := resultats.erreurs_detectees.getD []
  , suggestions := resultats.suggestions.getD ["Analyse effectuée par Gemini."] }

/-- `ReponseAnalyzer.evaluer_reponse_gemini` (Questionnaire.py, lines 288-323)
from the `json.loads` boundary on: a parsed object is defaulted and returned
together with the prompt; a parse failure raises. -/
def evaluer_reponse_gemini (reponse_json : Option GeminiJson)
    (prompt : String) : Except String (Resultats × String) :=
  match reponse_json with
  | some resultats => .ok (appliquer_defauts resultats, prompt)
  | none => .error "Erreur parsing JSON de Gemini."

/-! ## EvaluationRouter — `evaluer_reponse` -/

/-- `ReponseAnalyzer.evaluer_reponse` (Questionnaire.py, lines 232-250).
`gemini_model` models the lazily-initialized remote capability: `none` when
no client is configured, `some outcome` when the client is configured and the
whole remote attempt (`evaluer_reponse_gemini`, including transport) produces
`outcome` — `.ok` a result-and-prompt pair, `.error e` any raised exception
with message `e`.  On any remote failure the router falls back to the local
pipeline on the same `(question_data, reponse_user)`. -/
def evaluer_reponse (sim : String → String → ℚ) (kw : String → Finset String)
    (gemini_model : Option (Except String (Resultats × String)))
    (question_data : QuestionData) (reponse_user : String) :
    Resultats × String :=
  match gemini_model with
  | some (.ok r) => r
  | some (.error e) =>
      (evaluer_reponse_local sim kw question_data reponse_user,
       "Erreur Gemini (" ++ e ++ ") - Mode local utilisé.")
  | none =>
      (evaluer_reponse_local sim kw question_data reponse_user,
       "Mode local (Gemini non configuré).")

/-! ## BaselineGrader — `Projet/flaskapp/grader.py`

A rubric point of the Flask grader is either a plain string, a dictionary
`{"type": "regex", "value": pattern}` (a missing `"value"` defaults to the
empty pattern via `spec.get("value", "")`), or anything else (unknown kind).
Python's `re` module is modelled by an explicit interface: `valid p` states
whether `re.compile` accepts the pattern `p`, and `search p t` gives the
boolean outcome of `re.search(p, t, flags=re.I)` on a valid pattern.
`re.search` with an invalid pattern raises `re.error`, which the embedding
renders as `Except.error`. -/

/-- A rubric point as accepted by `BaselineGrader._check_point`. -/
inductive PointSpec where
  | chaine (s : String)
  | regex (value : String)
  | inconnu
deriving DecidableEq

/-- The interface of Python's `re` module used by `_check_point`. -/
structure ReModule where
  valid : String → Bool
  search : String → String → Bool

/-- `BaselineGrader._check_point` (grader.py, lines 18-23): a plain string is
checked by lowercased containment (`spec.lower() in text.lower()`); a regex
spec is checked by `re.search(pattern, text, re.I)`, which raises on an
invalid pattern; any other kind returns `False`. -/
def check_point (pyre : ReModule) (spec : PointSpec) (text : String) :
    Except String Bool :=
  match spec with
  | .chaine s => .ok (estInclusDans (minuscules s).data (minuscules text).data)
  | .regex value =>
      if pyre.valid value then .ok (pyre.search value text)
      else .error "re.error"
  | .inconnu => .ok false

/-- The required-point loop of `BaselineGrader.grade` (grader.py,
lines 31-33): each point goes to `found` or `missing` according to
`_check_point`; a raised `re.error` propagates out of the loop. -/
def partition_requis (pyre : ReModule) (text : String) :
    List PointSpec → Except String (List PointSpec × List PointSpec)
  | [] => .ok ([], [])
  | p :: reste =>
    match check_point pyre p text with
    | .error e => .error e
    | .ok b =>
      match partition_requis pyre text reste with
      | .error e => .error e
      | .ok (found, missing) =>
        if b then .ok (p :: found, missing) else .ok (found, p :: missing)

/-- The forbidden-point comprehension of `BaselineGrader.grade` (grader.py,
line 36): the forbidden points detected in the answer, in order; a raised
`re.error` propagates. -/
def detecter_interdits (pyre : ReModule) (text : String) :
    List PointSpec → Except String (List PointSpec)
  | [] => .ok []
  | p :: reste =>
    match check_point pyre p text with
    | .error e => .error e
    | .ok b =>
      match detecter_interdits pyre text reste with
      | .error e => .error e
      | .ok v => .ok (if b then p :: v else v)

/-- The constructor state of `BaselineGrader` (with the `or []` / `or ""`
defaults of the source already applied). -/
structure BaselineGrader where
  req : List PointSpec
  forb : List PointSpec
  expected : String

/-- The feedback dictionary assembled by `BaselineGrader.grade` (the source
serializes it with `json.dumps`; the claims only concern its content). -/
structure Feedback where
  similarity_score : ℚ
  required_found : List PointSpec
  required_missing : List PointSpec
  forbidden_detected : List PointSpec
  final : ℚ
deriving DecidableEq

/-- `BaselineGrader.grade` (grader.py, lines 25-47), parameterized by the
difflib sequence-matching ratio `seqSim` (`SequenceMatcher(None, a, b)
.ratio()`, an external stdlib computation applied to the lowercased texts):
`base = round(sim * 40, 2)`, plus 10 per required point found, minus 10 per
forbidden point detected, clamped to `[0, 100]`. -/
def grade (pyre : ReModule) (seqSim : String → String → ℚ)
    (g : BaselineGrader) (answer : String) : Except String (ℚ × Feedback) :=
  let text := answer
  let base := arrondi2 (seqSim (minuscules text) (minuscules g.expected) * 40)
  match partition_requis pyre text g.req with
  | .error e => .error e
  | .ok (found, missing) =>
    let req_score : ℚ := 10 * found.length
    match detecter_interdits pyre text g.forb with
    | .error e => .error e
    | .ok violated =>
      let pen : ℚ := 10 * violated.length
      let score := max 0 (min 100 (base + req_score - pen))
      .ok (score,
        { similarity_score := base
        , required_found := found
        , required_missing := missing
        , forbidden_detected := violated
        , final := score })

/-- A concrete instance of the `re` interface for concrete computations.  It
agrees with Python's `re` on every input it is applied to in this file:
`re.compile` rejects a lone "(" (unterminated subpattern), and `re.search`
with `re.I` on a pattern free of metacharacters is case-insensitive literal
containment. -/
def reConcret : ReModule :=
  { valid := fun p => !(p.data.contains '(')
  , search := fun p t =>
      estInclusDans (minuscules p).data (minuscules t).data }

/-- `score_base` as computed by `evaluer_reponse_local` (the value after the
coverage reweighting step). -/
def score_base_local (sim : String → String → ℚ) (kw : String → Finset String)
    (question_data : QuestionData) (reponse_user : String) : ℚ :=
  let similarite := sim reponse_user question_data.reponse_attendue
  let verification_elements :=
    verifier_presence_elements kw reponse_user question_data.points_obligatoires
  let score_base := similarite * 100
  if question_data.points_obligatoires.isEmpty then score_base
  else
    let taux_elements :=
      ((verification_elements.presents.length : ℚ) +
        (verification_elements.partiels.length : ℚ) * (1 / 2)) /
        (question_data.points_obligatoires.length : ℚ)
    score_base * (2 / 5) + taux_elements * 60

/-- `score_final` as computed by `evaluer_reponse_local` (before the
one-decimal rounding applied to the returned `score` field). -/
def score_final_local (sim : String → String → ℚ) (kw : String → Finset String)
    (question_data : QuestionData) (reponse_user : String) : ℚ :=
  max 0 (score_base_local sim kw question_data reponse_user -
    ((detecter_erreurs reponse_user question_data.erreurs_a_eviter).length : ℚ) * 10)

/-- The scoring formula in the words of the specification (§4.5), for
comparison with the source: `base = s*100`; if there is at least one required
point, `base` becomes `base*0.4 + coverage*60` with
`coverage = (|found| + 0.5*|partial|) / total_required`; the final score is
`max(0, base - 10*|violations|)`. -/
def formule_score_spec (s : ℚ)
    (nb_trouves nb_partiels nb_requis nb_violations : ℕ) : ℚ :=
  let base := s * 100
  let base :=
    if 0 < nb_requis then
      base * (2 / 5) +
        ((nb_trouves : ℚ) + (nb_partiels : ℚ) * (1 / 2)) / (nb_requis : ℚ) * 60
    else base
  max 0 (base - 10 * (nb_violations : ℚ))

/-- Equality is decidable on `Except` results (used in concrete
computations). -/
instance {ε α : Type} [DecidableEq ε] [DecidableEq α] :
    DecidableEq (Except ε α) := fun x y =>
  match x, y with
  | .error a, .error b =>
    if h : a = b then isTrue (by rw [h])
    else isFalse (fun hc => h (by injection hc))
  | .error _, .ok _ => isFalse (fun hc => Except.noConfusion hc)
  | .ok _, .error _ => isFalse (fun hc => Except.noConfusion hc)
  | .ok a, .ok b =>
    if h : a = b then isTrue (by rw [h])
    else isFalse (fun hc => h (by injection hc))

/-! ## Properties of the text normalizer -/

/-- `Char.toLower` is idempotent: lowering an already-lowered character
changes nothing. -/
theorem toLower_idem (c : Char) : c.toLower.toLower = c.toLower := by
  have haux : ∀ d : Char, ¬(d.toNat ≥ 65 ∧ d.toNat ≤ 90) → d.toLower = d := by
    intro d hd
    rw [Char.toLower, if_neg hd]
  by_cases h : c.toNat ≥ 65 ∧ c.toNat ≤ 90
  · have hlt : (c.toNat + 32).isValidChar := Or.inl (by omega)
    have hval : (Char.ofNat (c.toNat + 32)).toNat = c.toNat + 32 := by
      rw [Char.ofNat, dif_pos hlt]
      rfl
    have hc : c.toLower = Char.ofNat (c.toNat + 32) := by
      rw [Char.toLower, if_pos h]
    rw [hc]
    apply haux
    rw [hval]
    omega
  · rw [haux c h, haux c h]

/-- Every element of every chunk of `splitOnP p` fails `p` and comes from the
original list. -/
theorem splitOnP_forall {α : Type} (p : α → Bool) (l : List α) :
    ∀ w ∈ l.splitOnP p, ∀ a ∈ w, p a = false ∧ a ∈ l := by
  induction l with
  | nil =>
    intro w hw a ha
    rw [List.splitOnP_nil] at hw
    simp only [List.mem_singleton] at hw
    subst hw
    simp at ha
  | cons x xs ih =>
    intro w hw a ha
    rw [List.splitOnP_cons] at hw
    by_cases hx : p x
    · rw [if_pos hx] at hw
      rcases List.mem_cons.mp hw with h | h
      · subst h
        simp at ha
      · obtain ⟨h1, h2⟩ := ih w h a ha
        exact ⟨h1, List.mem_cons_of_mem _ h2⟩
    · rw [if_neg hx] at hw
      obtain ⟨hd, tl, hsplit⟩ : ∃ hd tl, xs.splitOnP p = hd :: tl := by
        cases hs : xs.splitOnP p with
        | nil => exact absurd hs (List.splitOnP_ne_nil _ _)
        | cons h t => exact ⟨h, t, rfl⟩
      rw [hsplit, List.modifyHead] at hw
      rcases List.mem_cons.mp hw with h | h
      · subst h
        rcases List.mem_cons.mp ha with rfl | h2
        · exact ⟨Bool.not_eq_true _ ▸ hx, List.mem_cons_self _ _⟩
        · have hm := ih hd (hsplit ▸ List.mem_cons_self hd tl) a h2
          exact ⟨hm.1, List.mem_cons_of_mem _ hm.2⟩
      · have hm := ih w (hsplit ▸ List.mem_cons_of_mem hd h) a ha
        exact ⟨hm.1, List.mem_cons_of_mem _ hm.2⟩

/-- Unfolding `intercalate` on a two-or-more-element list of chunks. -/
theorem intercalate_deux (w w' : List Char) (tl : List (List Char)) :
    List.intercalate [' '] (w :: w' :: tl) =
      w ++ ' ' :: List.intercalate [' '] (w' :: tl) := by
  simp [List.intercalate]

/-- Splitting on whitespace undoes joining nonempty whitespace-free chunks
with single spaces. -/
theorem splitOnP_blanc_intercalate (ws : List (List Char))
    (hnb : ∀ w ∈ ws, ∀ a ∈ w, blanc a = false) (h0 : ws ≠ []) :
    (List.intercalate [' '] ws).splitOnP blanc = ws := by
  induction ws with
  | nil => exact absurd rfl h0
  | cons w tl ih =>
    cases tl with
    | nil =>
      have hj : List.intercalate [' '] [w] = w := by
        simp [List.intercalate]
      rw [hj]
      exact List.splitOnP_eq_single _ _ (fun a ha hpa => by
        have := hnb w (List.mem_singleton_self w) a ha
        rw [this] at hpa
        exact Bool.false_ne_true hpa)
    | cons w' tl' =>
      rw [intercalate_deux,
        List.splitOnP_first _ _ (fun a ha hpa => by
          have := hnb w (List.mem_cons_self _ _) a ha
          rw [this] at hpa
          exact Bool.false_ne_true hpa) ' ' rfl,
        ih (fun v hv => hnb v (List.mem_cons_of_mem _ hv)) (List.cons_ne_nil _ _)]

/-- `texte.split()` undoes `' '.join` on nonempty whitespace-free words. -/
theorem decoupeBlancs_intercalate (ws : List (List Char))
    (hne : ∀ w ∈ ws, w ≠ []) (hnb : ∀ w ∈ ws, ∀ a ∈ w, blanc a = false) :
    decoupeBlancs (List.intercalate [' '] ws) = ws := by
  cases hws : ws with
  | nil => rfl
  | cons w tl =>
    unfold decoupeBlancs
    rw [← hws, splitOnP_blanc_intercalate ws hnb (hws ▸ List.cons_ne_nil _ _)]
    exact List.filter_eq_self.mpr (fun v hv => by
      simpa using hne v hv)

/-- A character of a space-joined chunk list is a space or a chunk
character. -/
theorem mem_intercalate_espace {a : Char} :
    ∀ {ws : List (List Char)}, a ∈ List.intercalate [' '] ws →
      a = ' ' ∨ ∃ w ∈ ws, a ∈ w := by
  intro ws
  induction ws with
  | nil => intro ha; simp [List.intercalate] at ha
  | cons w tl ih =>
    intro ha
    cases tl with
    | nil =>
      have hj : List.intercalate [' '] [w] = w := by simp [List.intercalate]
      rw [hj] at ha
      exact Or.inr ⟨w, List.mem_singleton_self w, ha⟩
    | cons w' tl' =>
      rw [intercalate_deux] at ha
      rcases List.mem_append.mp ha with h | h
      · exact Or.inr ⟨w, List.mem_cons_self _ _, h⟩
      · rcases List.mem_cons.mp h with rfl | h2
        · exact Or.inl rfl
        · rcases ih h2 with h3 | ⟨v, hv, hav⟩
          · exact Or.inl h3
          · exact Or.inr ⟨v, List.mem_cons_of_mem _ hv, hav⟩

/-- Every character of a normalized text is a kept word character or a single
space, and is already lowercase. -/
theorem normL_chars {a : Char} {l : List Char} (ha : a ∈ normL l) :
    (motChar a || blanc a) = true ∧ a.toLower = a := by
  unfold normL at ha
  rcases mem_intercalate_espace ha with rfl | ⟨w, hw, haw⟩
  · exact ⟨by decide, by decide⟩
  · have hw' : w ∈ (remplacePonct (minusculeL l)).splitOnP blanc :=
      List.mem_of_mem_filter hw
    obtain ⟨-, hmem⟩ := splitOnP_forall blanc _ w hw' a haw
    obtain ⟨c, hc, hca⟩ := List.mem_map.mp hmem
    obtain ⟨b, -, hbc⟩ := List.mem_map.mp hc
    by_cases hkeep : motChar c || blanc c
    · rw [if_pos hkeep] at hca
      subst hca
      refine ⟨hkeep, ?_⟩
      rw [← hbc]
      exact toLower_idem b
    · rw [if_neg hkeep] at hca
      subst hca
      exact ⟨by decide, by decide⟩

/-- Lowercasing fixes a normalized text. -/
theorem minusculeL_normL (l : List Char) : minusculeL (normL l) = normL l := by
  unfold minusculeL
  calc (normL l).map Char.toLower = (normL l).map id :=
        List.map_congr_left (fun a ha => (normL_chars ha).2)
    _ = normL l := List.map_id _

/-- Punctuation replacement fixes a normalized text. -/
theorem remplacePonct_normL (l : List Char) :
    remplacePonct (normL l) = normL l := by
  unfold remplacePonct
  calc (normL l).map (fun c => if motChar c || blanc c then c else ' ')
      = (normL l).map id :=
        List.map_congr_left (fun a ha => if_pos (normL_chars ha).1)
    _ = normL l := List.map_id _

/-- Splitting a normalized text recovers exactly its words. -/
theorem decoupeBlancs_normL (l : List Char) :
    decoupeBlancs (normL l) = decoupeBlancs (remplacePonct (minusculeL l)) := by
  unfold normL
  refine decoupeBlancs_intercalate _ (fun w hw => by simpa using List.of_mem_filter hw)
    (fun w hw a ha =>
      (splitOnP_forall blanc _ w (List.mem_of_mem_filter hw) a ha).1)

/-- The normalizer is idempotent on character lists. -/
theorem normL_idem (l : List Char) : normL (normL l) = normL l := by
  conv_lhs => rw [normL, minusculeL_normL, remplacePonct_normL, decoupeBlancs_normL]
  rfl

/-- C7.  The text normalizer `normaliser_texte` is a total pure function (it
is defined as a Lean function, hence total on all strings) and idempotent:
normalizing twice equals normalizing once, for every input string. -/
theorem c7_normaliser_texte_idempotent (x : String) :
    normaliser_texte (normaliser_texte x) = normaliser_texte x := by
  show (⟨normL (normaliser_texte x).data⟩ : String) = ⟨normL x.data⟩
  rw [show (normaliser_texte x).data = normL x.data from rfl, normL_idem]

/-! ## Properties of substring containment -/

/-- `estPrefixeDe` decides the initial-segment relation. -/
theorem estPrefixeDe_iff : ∀ l g : List Char,
    estPrefixeDe l g = true ↔ ∃ r, g = l ++ r
  | [], g => by simp [estPrefixeDe]
  | a :: l, [] => by simp [estPrefixeDe]
  | a :: l, b :: g => by
    simp only [estPrefixeDe, Bool.and_eq_true, beq_iff_eq]
    constructor
    · rintro ⟨rfl, h⟩
      obtain ⟨r, rfl⟩ := (estPrefixeDe_iff l g).mp h
      exact ⟨r, rfl⟩
    · rintro ⟨r, hr⟩
      rw [List.cons_append] at hr
      injection hr with h1 h2
      exact ⟨h1.symm, (estPrefixeDe_iff l g).mpr ⟨r, h2⟩⟩

/-- `estInclusDans` decides contiguous containment, Python's `in` on
strings: `l` occurs in `g` exactly when `g` splits as `u ++ l ++ v`. -/
theorem estInclusDans_iff : ∀ l g : List Char,
    estInclusDans l g = true ↔ ∃ u v, g = u ++ l ++ v
  | l, [] => by
    simp only [estInclusDans, List.isEmpty_iff]
    constructor
    · rintro rfl
      exact ⟨[], [], rfl⟩
    · rintro ⟨u, v, huv⟩
      rcases List.append_eq_nil.mp (List.append_eq_nil.mp huv.symm).1 with ⟨-, h⟩
      exact h
  | l, b :: gs => by
    simp only [estInclusDans, Bool.or_eq_true]
    constructor
    · rintro (h | h)
      · obtain ⟨r, hr⟩ := (estPrefixeDe_iff l (b :: gs)).mp h
        exact ⟨[], r, by simpa using hr⟩
      · obtain ⟨u, v, rfl⟩ := (estInclusDans_iff l gs).mp h
        exact ⟨b :: u, v, rfl⟩
    · rintro ⟨u, v, huv⟩
      cases u with
      | nil =>
        exact Or.inl ((estPrefixeDe_iff l (b :: gs)).mpr ⟨v, by simpa using huv⟩)
      | cons b' u' =>
        rw [List.cons_append, List.cons_append] at huv
        injection huv with h1 h2
        exact Or.inr ((estInclusDans_iff l gs).mpr ⟨u', v, by simpa using h2⟩)

/-! ## Properties of the required-point classifier -/

/-- The classification loop is the triple of complementary filters: direct
matches, partial-only matches, and the rest, each in iteration order. -/
theorem verifier_boucle_eq_filter (pres part : String → Bool)
    (l : List String) :
    verifier_boucle pres part l =
      ⟨l.filter pres, l.filter (fun e => !pres e && part e),
        l.filter (fun e => !pres e && !part e)⟩ := by
  induction l with
  | nil => rfl
  | cons x xs ih =>
    by_cases h1 : pres x
    · simp [verifier_boucle, ih, List.filter_cons, h1]
    · by_cases h2 : part x
      · simp [verifier_boucle, ih, List.filter_cons, h1, h2]
      · simp [verifier_boucle, ih, List.filter_cons, h1, h2]

/-- The three classified lists repartition the input list exactly. -/
theorem verifier_boucle_perm (pres part : String → Bool) (l : List String) :
    ((verifier_boucle pres part l).presents ++
      (verifier_boucle pres part l).partiels ++
      (verifier_boucle pres part l).absents).Perm l := by
  rw [verifier_boucle_eq_filter]
  have hsub : ∀ l' : List String,
      l'.filter (fun e => !pres e && part e) = (l'.filter (fun e => !pres e)).filter part := by
    intro l'
    rw [List.filter_filter]
    exact List.filter_congr (fun a _ => Bool.and_comm _ _)
  have hsub' : ∀ l' : List String,
      l'.filter (fun e => !pres e && !part e) =
        (l'.filter (fun e => !pres e)).filter (fun e => !part e) := by
    intro l'
    rw [List.filter_filter]
    exact List.filter_congr (fun a _ => Bool.and_comm _ _)
  dsimp only
  rw [List.append_assoc, hsub l, hsub' l]
  exact ((List.filter_append_perm part _).append_left _).trans
    (List.filter_append_perm pres l)

/-- The classifier of `verifier_presence_elements`, with its two tests made
explicit: the direct test is normalized-substring containment and the partial
test is the 70% keyword-overlap rule. -/
theorem verifier_presence_elements_eq (kw : String → Finset String)
    (reponse_user : String) (elements_requis : List String) :
    verifier_presence_elements kw reponse_user elements_requis =
      verifier_boucle
        (fun element => estInclusDans (normaliser_texte element).data
          (normaliser_texte reponse_user).data)
        (fun element => decide (kw element).Nonempty &&
          decide (((kw element).card : ℚ) * (7 / 10) ≤
            (((kw element) ∩ kw reponse_user).card : ℚ)))
        elements_requis := rfl

/-- C2.  The required-point classification partitions the rubric's required
points — the concatenation of `presents`, `partiels` and `absents` is a
permutation of the input list (each point lands in the output exactly as
often as it occurs in the rubric, with no omission and no duplication), and
no point belongs to two distinct classes — and every detected violation is
one of the rubric's forbidden points.  This holds for every keyword
extractor, answer and rubric. -/
theorem c2_partition_points_requis (kw : String → Finset String)
    (reponse_user : String) (elements_requis erreurs_a_eviter : List String) :
    (((verifier_presence_elements kw reponse_user elements_requis).presents ++
        (verifier_presence_elements kw reponse_user elements_requis).partiels ++
        (verifier_presence_elements kw reponse_user elements_requis).absents).Perm
      elements_requis) ∧
    (∀ e : String,
      ¬(e ∈ (verifier_presence_elements kw reponse_user elements_requis).presents ∧
        e ∈ (verifier_presence_elements kw reponse_user elements_requis).partiels) ∧
      ¬(e ∈ (verifier_presence_elements kw reponse_user elements_requis).presents ∧
        e ∈ (verifier_presence_elements kw reponse_user elements_requis).absents) ∧
      ¬(e ∈ (verifier_presence_elements kw reponse_user elements_requis).partiels ∧
        e ∈ (verifier_presence_elements kw reponse_user elements_requis).absents)) ∧
    (∀ e ∈ detecter_erreurs reponse_user erreurs_a_eviter,
      e ∈ erreurs_a_eviter) := by
  refine ⟨verifier_boucle_perm _ _ _, ?_, ?_⟩
  · intro e
    rw [verifier_presence_elements_eq, verifier_boucle_eq_filter]
    dsimp only
    refine ⟨?_, ?_, ?_⟩
    · rintro ⟨h1, h2⟩
      have ha := (List.mem_filter.mp h1).2
      have hb := (List.mem_filter.mp h2).2
      simp [ha] at hb
    · rintro ⟨h1, h2⟩
      have ha := (List.mem_filter.mp h1).2
      have hb := (List.mem_filter.mp h2).2
      simp [ha] at hb
    · rintro ⟨h1, h2⟩
      have ha := (List.mem_filter.mp h1).2
      have hb := (List.mem_filter.mp h2).2
      rw [Bool.and_eq_true] at ha hb
      have hb' := hb.2
      rw [ha.2] at hb'
      simp at hb'
  · intro e he
    exact List.mem_of_mem_filter he

/-- C9 (amended).  A literal point is judged present by
`verifier_presence_elements` exactly when the normalized point text occurs as
a substring of the normalized answer; `BaselineGrader._check_point` instead
judges a plain-string point by lowercased containment only (no punctuation
replacement or whitespace collapsing); and `estInclusDans` is genuine
substring occurrence. -/
theorem c9_point_litteral :
    (∀ (kw : String → Finset String) (reponse_user : String)
        (elements_requis : List String) (e : String),
      e ∈ (verifier_presence_elements kw reponse_user elements_requis).presents ↔
        e ∈ elements_requis ∧
          estInclusDans (normaliser_texte e).data
            (normaliser_texte reponse_user).data = true) ∧
    (∀ (pyre : ReModule) (s text : String),
      check_point pyre (.chaine s) text =
        .ok (estInclusDans (minuscules s).data (minuscules text).data)) ∧
    (∀ petit grand : List Char,
      estInclusDans petit grand = true ↔ ∃ u v, grand = u ++ petit ++ v) := by
  refine ⟨?_, fun _ _ _ => rfl, estInclusDans_iff⟩
  intro kw reponse_user elements_requis e
  rw [verifier_presence_elements_eq, verifier_boucle_eq_filter]
  simp [List.mem_filter]

/-- C9 is refuted as stated: for the literal point "a-b" and the answer
"a b", the normalized point ("a b") is a substring of the normalized answer,
yet `BaselineGrader._check_point` judges the point absent, because it tests
lowercased containment without replacing punctuation. -/
theorem c9_contre_exemple :
    check_point reConcret (.chaine "a-b") "a b" = .ok false ∧
    estInclusDans (normaliser_texte "a-b").data
      (normaliser_texte "a b").data = true := by
  constructor
  · rfl
  · decide

/-! ## Properties of the local score -/

/-- `Rat.floor` agrees with the floor of the archimedean order structure. -/
theorem floor_rat_eq_floor (x : ℚ) : x.floor = ⌊x⌋ := by
  rw [Rat.floor_def', Rat.floor_def]

/-- Evaluation rule for `arrondi1` at a concrete value. -/
theorem arrondi1_eval (z : ℤ) {q : ℚ} (h1 : (z : ℚ) ≤ 10 * q + 1 / 2)
    (h2 : 10 * q + 1 / 2 < z + 1) : arrondi1 q = (z : ℚ) / 10 := by
  rw [arrondi1, floor_rat_eq_floor,
    show ⌊10 * q + 1 / 2⌋ = z from Int.floor_eq_iff.mpr ⟨h1, h2⟩]

/-- Evaluation rule for `arrondi2` at a concrete value. -/
theorem arrondi2_eval (z : ℤ) {q : ℚ} (h1 : (z : ℚ) ≤ 100 * q + 1 / 2)
    (h2 : 100 * q + 1 / 2 < z + 1) : arrondi2 q = (z : ℚ) / 100 := by
  rw [arrondi2, floor_rat_eq_floor,
    show ⌊100 * q + 1 / 2⌋ = z from Int.floor_eq_iff.mpr ⟨h1, h2⟩]

/-- `arrondi1` is Python's `round(·, 1)`: the nearest-tenth rounding, stated
via Mathlib's `round`. -/
theorem arrondi1_eq_round (q : ℚ) :
    arrondi1 q = ((round (10 * q) : ℤ) : ℚ) / 10 := by
  rw [arrondi1, floor_rat_eq_floor, round_eq]

/-- Rounding to one decimal is monotone. -/
theorem arrondi1_mono {x y : ℚ} (h : x ≤ y) : arrondi1 x ≤ arrondi1 y := by
  rw [arrondi1, arrondi1, floor_rat_eq_floor, floor_rat_eq_floor]
  have hf : ⌊10 * x + 1 / 2⌋ ≤ ⌊10 * y + 1 / 2⌋ :=
    Int.floor_le_floor (by linarith)
  have hc : ((⌊10 * x + 1 / 2⌋ : ℤ) : ℚ) ≤ ((⌊10 * y + 1 / 2⌋ : ℤ) : ℚ) :=
    Int.cast_le.mpr hf
  linarith

/-- Rounding to one decimal preserves nonnegativity. -/
theorem arrondi1_nonneg {x : ℚ} (h : 0 ≤ x) : 0 ≤ arrondi1 x := by
  have h0 : arrondi1 (0 : ℚ) = 0 := by
    rw [arrondi1_eval 0 (by norm_num) (by norm_num)]
    norm_num
  have := arrondi1_mono h
  linarith

/-- Rounding to one decimal preserves the upper bound 100. -/
theorem arrondi1_le_cent {x : ℚ} (h : x ≤ 100) : arrondi1 x ≤ 100 := by
  have h100 : arrondi1 (100 : ℚ) = 100 := by
    rw [arrondi1_eval 1000 (by norm_num) (by norm_num)]
    norm_num
  have := arrondi1_mono h
  linarith

/-- The `score` field is the one-decimal rounding of `score_final`. -/
theorem evaluer_reponse_local_score (sim : String → String → ℚ)
    (kw : String → Finset String) (question_data : QuestionData)
    (reponse_user : String) :
    (evaluer_reponse_local sim kw question_data reponse_user).score =
      arrondi1 (score_final_local sim kw question_data reponse_user) := rfl

/-- The `est_correct` field is computed from the unrounded `score_final`. -/
theorem evaluer_reponse_local_est_correct (sim : String → String → ℚ)
    (kw : String → Finset String) (question_data : QuestionData)
    (reponse_user : String) :
    (evaluer_reponse_local sim kw question_data reponse_user).est_correct =
      (decide (60 ≤ score_final_local sim kw question_data reponse_user) &&
        (detecter_erreurs reponse_user question_data.erreurs_a_eviter).isEmpty &&
        (verifier_presence_elements kw reponse_user
          question_data.points_obligatoires).absents.isEmpty) := rfl

/-- The unrounded local score agrees with the specification formula. -/
theorem score_final_local_eq_formule (sim : String → String → ℚ)
    (kw : String → Finset String) (question_data : QuestionData)
    (reponse_user : String) :
    score_final_local sim kw question_data reponse_user =
      formule_score_spec (sim reponse_user question_data.reponse_attendue)
        (verifier_presence_elements kw reponse_user
          question_data.points_obligatoires).presents.length
        (verifier_presence_elements kw reponse_user
          question_data.points_obligatoires).partiels.length
        question_data.points_obligatoires.length
        (detecter_erreurs reponse_user question_data.erreurs_a_eviter).length := by
  unfold score_final_local score_base_local formule_score_spec
  cases hq : question_data.points_obligatoires with
  | nil =>
    dsimp only
    norm_num
    congr 1
    ring
  | cons x xs =>
    dsimp only
    norm_num
    congr 1
    ring

/-- C1 (amended).  For every rubric and answer evaluated by the local
pipeline, with `s` the similarity ratio, F/P/M the found/partial/missing
required points and V the detected violations, the local pipeline computes
`base = s*100`, reweights it to `base*0.4 + 60*((|F| + 0.5*|P|)/total)` when
the rubric has required points, and takes `max(0, base - 10*|V|)`; the
returned `score` field is that value rounded to one decimal (`round(x, 1)`),
and `is_correct` holds exactly when the unrounded value is at least 60, V is
empty and M is empty. -/
theorem c1_formule_du_score (sim : String → String → ℚ)
    (kw : String → Finset String) (question_data : QuestionData)
    (reponse_user : String) :
    (evaluer_reponse_local sim kw question_data reponse_user).score =
      arrondi1 (formule_score_spec
        (sim reponse_user question_data.reponse_attendue)
        (verifier_presence_elements kw reponse_user
          question_data.points_obligatoires).presents.length
        (verifier_presence_elements kw reponse_user
          question_data.points_obligatoires).partiels.length
        question_data.points_obligatoires.length
        (detecter_erreurs reponse_user question_data.erreurs_a_eviter).length) ∧
    ((evaluer_reponse_local sim kw question_data reponse_user).est_correct = true ↔
      (60 ≤ formule_score_spec
        (sim reponse_user question_data.reponse_attendue)
        (verifier_presence_elements kw reponse_user
          question_data.points_obligatoires).presents.length
        (verifier_presence_elements kw reponse_user
          question_data.points_obligatoires).partiels.length
        question_data.points_obligatoires.length
        (detecter_erreurs reponse_user question_data.erreurs_a_eviter).length ∧
      detecter_erreurs reponse_user question_data.erreurs_a_eviter = [] ∧
      (verifier_presence_elements kw reponse_user
        question_data.points_obligatoires).absents = [])) := by
  constructor
  · rw [evaluer_reponse_local_score, score_final_local_eq_formule]
  · rw [evaluer_reponse_local_est_correct, ← score_final_local_eq_formule]
    simp [List.isEmpty_iff, and_assoc]

/-- C1 is refuted as stated on the `score` field: with an empty rubric and a
similarity ratio of 2/3 (the `SequenceMatcher` ratio of, e.g., "a" against
"ab"), the claimed final score is `max(0, (2/3)*100 - 10*0) = 200/3`, but the
returned score is its one-decimal rounding `66.7 = 667/10 ≠ 200/3`. -/
theorem c1_contre_exemple :
    (evaluer_reponse_local (fun _ _ => 2 / 3) extraire_mots_cles_basic
        ⟨"", [], []⟩ "x").score ≠
      max 0 ((2 / 3 : ℚ) * 100 - 10 * 0) := by
  have h1 : score_final_local (fun _ _ => (2 : ℚ) / 3) extraire_mots_cles_basic
      ⟨"", [], []⟩ "x" = 200 / 3 := by
    rw [score_final_local_eq_formule]
    show formule_score_spec (2 / 3) 0 0 0 0 = 200 / 3
    simp only [formule_score_spec]
    norm_num
  rw [evaluer_reponse_local_score, h1,
    arrondi1_eval 667 (by norm_num) (by norm_num),
    max_eq_right (by norm_num : (0 : ℚ) ≤ 2 / 3 * 100 - 10 * 0)]
  norm_num

/-! ## Score bounds -/

/-- The three classified lists together are as long as the input. -/
theorem verifier_boucle_longueurs (pres part : String → Bool) (l : List String) :
    (verifier_boucle pres part l).presents.length +
      (verifier_boucle pres part l).partiels.length +
      (verifier_boucle pres part l).absents.length = l.length := by
  have h := (verifier_boucle_perm pres part l).length_eq
  simpa [List.length_append, Nat.add_assoc] using h

/-- Classified-list lengths for `verifier_presence_elements`. -/
theorem verifier_longueurs (kw : String → Finset String) (reponse_user : String)
    (elements_requis : List String) :
    (verifier_presence_elements kw reponse_user elements_requis).presents.length +
      (verifier_presence_elements kw reponse_user elements_requis).partiels.length +
      (verifier_presence_elements kw reponse_user elements_requis).absents.length =
      elements_requis.length := by
  rw [verifier_presence_elements_eq]
  exact verifier_boucle_longueurs _ _ _

/-- The reweighted similarity base stays within `[0, 100]` whenever the
similarity ratio lies in `[0, 1]`. -/
theorem score_base_local_borne (sim : String → String → ℚ)
    (kw : String → Finset String) (question_data : QuestionData)
    (reponse_user : String)
    (h0 : 0 ≤ sim reponse_user question_data.reponse_attendue)
    (h1 : sim reponse_user question_data.reponse_attendue ≤ 1) :
    0 ≤ score_base_local sim kw question_data reponse_user ∧
      score_base_local sim kw question_data reponse_user ≤ 100 := by
  unfold score_base_local
  dsimp only
  by_cases hq : question_data.points_obligatoires.isEmpty
  · rw [if_pos hq]
    constructor <;> nlinarith
  · rw [if_neg hq]
    have hne : question_data.points_obligatoires ≠ [] := by
      simpa [List.isEmpty_iff] using hq
    have hnpos : 0 < question_data.points_obligatoires.length :=
      List.length_pos.mpr hne
    have hlen := verifier_longueurs kw reponse_user question_data.points_obligatoires
    set P := (verifier_presence_elements kw reponse_user
      question_data.points_obligatoires).presents.length with hP
    set Q := (verifier_presence_elements kw reponse_user
      question_data.points_obligatoires).partiels.length with hQ
    set n := question_data.points_obligatoires.length with hn
    have hPQ : P + Q ≤ n := by omega
    have hcast : (P : ℚ) + (Q : ℚ) ≤ (n : ℚ) := by exact_mod_cast hPQ
    have hnq : (0 : ℚ) < (n : ℚ) := by exact_mod_cast hnpos
    have htaux0 : 0 ≤ ((P : ℚ) + (Q : ℚ) * (1 / 2)) / (n : ℚ) := by positivity
    have htaux1 : ((P : ℚ) + (Q : ℚ) * (1 / 2)) / (n : ℚ) ≤ 1 := by
      rw [div_le_one hnq]
      have : (0 : ℚ) ≤ (Q : ℚ) := Nat.cast_nonneg _
      linarith
    constructor
    · positivity
    · nlinarith

/-- The unrounded final score stays within `[0, 100]` whenever the similarity
ratio lies in `[0, 1]`. -/
theorem score_final_local_borne (sim : String → String → ℚ)
    (kw : String → Finset String) (question_data : QuestionData)
    (reponse_user : String)
    (h0 : 0 ≤ sim reponse_user question_data.reponse_attendue)
    (h1 : sim reponse_user question_data.reponse_attendue ≤ 1) :
    0 ≤ score_final_local sim kw question_data reponse_user ∧
      score_final_local sim kw question_data reponse_user ≤ 100 := by
  obtain ⟨hb0, hb1⟩ :=
    score_base_local_borne sim kw question_data reponse_user h0 h1
  unfold score_final_local
  refine ⟨le_max_left _ _, max_le (by norm_num) ?_⟩
  have hL : (0 : ℚ) ≤
      ((detecter_erreurs reponse_user question_data.erreurs_a_eviter).length : ℚ) :=
    Nat.cast_nonneg _
  linarith

/-- `BaselineGrader.grade` on the success path: when both point loops
succeed, the result is the clamped score and the assembled feedback. -/
theorem grade_eq_ok (pyre : ReModule) (seqSim : String → String → ℚ)
    (g : BaselineGrader) (answer : String)
    (found missing violated : List PointSpec)
    (hp : partition_requis pyre answer g.req = .ok (found, missing))
    (hv : detecter_interdits pyre answer g.forb = .ok violated) :
    grade pyre seqSim g answer = .ok
      (max 0 (min 100
        (arrondi2 (seqSim (minuscules answer) (minuscules g.expected) * 40) +
          10 * (found.length : ℚ) - 10 * (violated.length : ℚ))),
      { similarity_score :=
          arrondi2 (seqSim (minuscules answer) (minuscules g.expected) * 40)
      , required_found := found
      , required_missing := missing
      , forbidden_detected := violated
      , final := max 0 (min 100
          (arrondi2 (seqSim (minuscules answer) (minuscules g.expected) * 40) +
            10 * (found.length : ℚ) - 10 * (violated.length : ℚ))) }) := by
  unfold grade
  dsimp only
  rw [hp, hv]

/-- `BaselineGrader.grade` propagates a `re.error` raised while checking the
required points. -/
theorem grade_erreur_requis (pyre : ReModule) (seqSim : String → String → ℚ)
    (g : BaselineGrader) (answer : String) (e : String)
    (hp : partition_requis pyre answer g.req = .error e) :
    grade pyre seqSim g answer = .error e := by
  unfold grade
  dsimp only
  rw [hp]

/-- `BaselineGrader.grade` propagates a `re.error` raised while checking the
forbidden points. -/
theorem grade_erreur_interdits (pyre : ReModule) (seqSim : String → String → ℚ)
    (g : BaselineGrader) (answer : String)
    (found missing : List PointSpec) (e : String)
    (hp : partition_requis pyre answer g.req = .ok (found, missing))
    (hv : detecter_interdits pyre answer g.forb = .error e) :
    grade pyre seqSim g answer = .error e := by
  unfold grade
  dsimp only
  rw [hp, hv]

/-- C4 (amended).  The local pipeline's returned score lies in `[0, 100]`
for every rubric and answer (including empty answers, empty rubrics and
rubrics with only forbidden points), given that the similarity ratio lies in
`[0, 1]`; and every score returned by `BaselineGrader.grade` lies in
`[0, 100]` unconditionally.  (The remote path propagates the JSON-supplied
score without clamping — see the counterexample.) -/
theorem c4_bornes_du_score :
    (∀ (sim : String → String → ℚ) (kw : String → Finset String)
        (question_data : QuestionData) (reponse_user : String),
      0 ≤ sim reponse_user question_data.reponse_attendue →
      sim reponse_user question_data.reponse_attendue ≤ 1 →
      0 ≤ (evaluer_reponse_local sim kw question_data reponse_user).score ∧
        (evaluer_reponse_local sim kw question_data reponse_user).score ≤ 100) ∧
    (∀ (pyre : ReModule) (seqSim : String → String → ℚ) (g : BaselineGrader)
        (answer : String) (s : ℚ) (fb : Feedback),
      grade pyre seqSim g answer = .ok (s, fb) → 0 ≤ s ∧ s ≤ 100) := by
  constructor
  · intro sim kw question_data reponse_user h0 h1
    rw [evaluer_reponse_local_score]
    obtain ⟨hb0, hb1⟩ :=
      score_final_local_borne sim kw question_data reponse_user h0 h1
    exact ⟨arrondi1_nonneg hb0, arrondi1_le_cent hb1⟩
  · intro pyre seqSim g answer s fb h
    cases hp : partition_requis pyre answer g.req with
    | error e =>
      rw [grade_erreur_requis _ _ _ _ _ hp] at h
      exact absurd h (by simp)
    | ok pr =>
      obtain ⟨found, missing⟩ := pr
      cases hv : detecter_interdits pyre answer g.forb with
      | error e =>
        rw [grade_erreur_interdits _ _ _ _ _ _ _ hp hv] at h
        exact absurd h (by simp)
      | ok violated =>
        rw [grade_eq_ok _ _ _ _ _ _ _ hp hv] at h
        injection h with h'
        rw [Prod.mk.injEq] at h'
        rw [← h'.1]
        exact ⟨le_max_left _ _, max_le (by norm_num) (min_le_left _ _)⟩

/-- C4 is refuted as stated for the remote path: a parsed remote JSON object
carrying `score = 150` is returned by `evaluer_reponse_gemini` with its score
unclamped, so the returned EvaluationResult violates `score ≤ 100`. -/
theorem c4_contre_exemple :
    evaluer_reponse_gemini
        (some ⟨some 150, none, none, none, none, none, none, none⟩) "p" =
      .ok (appliquer_defauts
        ⟨some 150, none, none, none, none, none, none, none⟩, "p") ∧
    (appliquer_defauts
      ⟨some 150, none, none, none, none, none, none, none⟩).score = 150 ∧
    ¬((appliquer_defauts
      ⟨some 150, none, none, none, none, none, none, none⟩).score ≤ 100) := by
  refine ⟨rfl, rfl, ?_⟩
  rw [show (appliquer_defauts
    ⟨some 150, none, none, none, none, none, none, none⟩).score = 150 from rfl]
  norm_num

/-- Witness for C4 at concrete inputs, on both the local pipeline and the
baseline grader. -/
theorem c4_bornes_du_score_temoin :
    ((0 : ℚ) ≤ 1 / 2 ∧ (1 / 2 : ℚ) ≤ 1 ∧
      (0 ≤ (evaluer_reponse_local (fun _ _ => 1 / 2) extraire_mots_cles_basic
          ⟨"ab", ["ab"], ["cd"]⟩ "ab").score ∧
        (evaluer_reponse_local (fun _ _ => 1 / 2) extraire_mots_cles_basic
          ⟨"ab", ["ab"], ["cd"]⟩ "ab").score ≤ 100)) ∧
    (grade reConcret (fun _ _ => 0) ⟨[], [], ""⟩ "" =
        .ok (0, ⟨0, [], [], [], 0⟩) ∧
      ((0 : ℚ) ≤ 0 ∧ (0 : ℚ) ≤ 100)) := by
  have hg : grade reConcret (fun _ _ => (0 : ℚ)) ⟨[], [], ""⟩ "" =
      .ok (0, ⟨0, [], [], [], 0⟩) := by
    rw [grade_eq_ok reConcret (fun _ _ => (0 : ℚ)) ⟨[], [], ""⟩ "" [] [] []
      rfl rfl]
    have ha : arrondi2 (0 : ℚ) = 0 := by
      rw [arrondi2_eval 0 (by norm_num) (by norm_num)]
      norm_num
    norm_num [ha]
  refine ⟨⟨by norm_num, by norm_num,
    c4_bornes_du_score.1 _ _ _ _ (by norm_num) (by norm_num)⟩,
    hg, c4_bornes_du_score.2 _ _ _ _ _ _ hg⟩

/-! ## Monotonicity in the forbidden points -/

/-- Appending a violated forbidden phrase appends it to the detected
errors. -/
theorem detecter_erreurs_append (reponse_user e : String)
    (erreurs : List String)
    (hviol : estInclusDans (normaliser_texte e).data
      (normaliser_texte reponse_user).data = true) :
    detecter_erreurs reponse_user (erreurs ++ [e]) =
      detecter_erreurs reponse_user erreurs ++ [e] := by
  unfold detecter_erreurs
  dsimp only
  rw [List.filter_append]
  congr 1
  simp [hviol]

/-- Unfolding equation of `detecter_interdits` on a nonempty list. -/
theorem detecter_interdits_cons (pyre : ReModule) (text : String)
    (x : PointSpec) (xs : List PointSpec) :
    detecter_interdits pyre text (x :: xs) =
      match check_point pyre x text with
      | .error e => .error e
      | .ok b =>
        match detecter_interdits pyre text xs with
        | .error e => .error e
        | .ok v => .ok (if b then x :: v else v) := rfl

/-- Appending a violated forbidden point appends it to the detected
list. -/
theorem detecter_interdits_append (pyre : ReModule) (text : String)
    (p : PointSpec) (hp : check_point pyre p text = .ok true) :
    ∀ (l : List PointSpec) (v : List PointSpec),
      detecter_interdits pyre text l = .ok v →
      detecter_interdits pyre text (l ++ [p]) = .ok (v ++ [p]) := by
  intro l
  induction l with
  | nil =>
    intro v hl
    have h0 : detecter_interdits pyre text [] = .ok ([] : List PointSpec) := rfl
    rw [h0] at hl
    injection hl with h
    subst h
    show detecter_interdits pyre text [p] = .ok [p]
    rw [detecter_interdits_cons, hp]
    rfl
  | cons x xs ih =>
    intro v hl
    rw [detecter_interdits_cons] at hl
    cases hb : check_point pyre x text with
    | error e =>
      rw [hb] at hl
      exact absurd hl (by simp)
    | ok b =>
      rw [hb] at hl
      dsimp only at hl
      cases hx : detecter_interdits pyre text xs with
      | error e =>
        rw [hx] at hl
        exact absurd hl (by simp)
      | ok v' =>
        rw [hx] at hl
        dsimp only at hl
        injection hl with h
        subst h
        rw [List.cons_append, detecter_interdits_cons, hb, ih v' hx]
        cases b <;> simp

/-- C8.  Adding one forbidden point violated by the answer to an
otherwise-identical evaluation never increases the returned score — in the
local pipeline (a violated forbidden phrase appended to `erreurs_a_eviter`)
and in `BaselineGrader.grade` (a detected forbidden point appended to the
grader's forbidden list). -/
theorem c8_penalite_monotone :
    (∀ (sim : String → String → ℚ) (kw : String → Finset String)
        (question_data : QuestionData) (reponse_user e : String),
      estInclusDans (normaliser_texte e).data
        (normaliser_texte reponse_user).data = true →
      (evaluer_reponse_local sim kw
        ⟨question_data.reponse_attendue, question_data.points_obligatoires,
          question_data.erreurs_a_eviter ++ [e]⟩ reponse_user).score ≤
        (evaluer_reponse_local sim kw question_data reponse_user).score) ∧
    (∀ (pyre : ReModule) (seqSim : String → String → ℚ) (g : BaselineGrader)
        (answer : String) (p : PointSpec) (s : ℚ) (fb : Feedback),
      grade pyre seqSim g answer = .ok (s, fb) →
      check_point pyre p answer = .ok true →
      ∃ s' fb', grade pyre seqSim ⟨g.req, g.forb ++ [p], g.expected⟩ answer =
        .ok (s', fb') ∧ s' ≤ s) := by
  constructor
  · intro sim kw question_data reponse_user e hviol
    rw [evaluer_reponse_local_score, evaluer_reponse_local_score]
    apply arrondi1_mono
    unfold score_final_local
    have hb : score_base_local sim kw
        ⟨question_data.reponse_attendue, question_data.points_obligatoires,
          question_data.erreurs_a_eviter ++ [e]⟩ reponse_user =
        score_base_local sim kw question_data reponse_user := rfl
    rw [hb]
    have hd : detecter_erreurs reponse_user
        (⟨question_data.reponse_attendue, question_data.points_obligatoires,
          question_data.erreurs_a_eviter ++ [e]⟩ : QuestionData).erreurs_a_eviter =
        detecter_erreurs reponse_user question_data.erreurs_a_eviter ++ [e] :=
      detecter_erreurs_append reponse_user e question_data.erreurs_a_eviter hviol
    rw [hd]
    apply max_le_max (le_refl 0)
    have hlen : ((detecter_erreurs reponse_user
        question_data.erreurs_a_eviter ++ [e]).length : ℚ) =
        ((detecter_erreurs reponse_user question_data.erreurs_a_eviter).length : ℚ) + 1 := by
      rw [List.length_append]
      push_cast
      norm_num
    rw [hlen]
    linarith
  · intro pyre seqSim g answer p s fb h hc
    cases hp : partition_requis pyre answer g.req with
    | error e =>
      rw [grade_erreur_requis _ _ _ _ _ hp] at h
      exact absurd h (by simp)
    | ok pr =>
      obtain ⟨found, missing⟩ := pr
      cases hv : detecter_interdits pyre answer g.forb with
      | error e =>
        rw [grade_erreur_interdits _ _ _ _ _ _ _ hp hv] at h
        exact absurd h (by simp)
      | ok violated =>
        rw [grade_eq_ok _ _ _ _ _ _ _ hp hv] at h
        injection h with h'
        rw [Prod.mk.injEq] at h'
        have hv' : detecter_interdits pyre answer
            (⟨g.req, g.forb ++ [p], g.expected⟩ : BaselineGrader).forb =
            .ok (violated ++ [p]) :=
          detecter_interdits_append pyre answer p hc g.forb violated hv
        refine ⟨_, _, grade_eq_ok pyre seqSim ⟨g.req, g.forb ++ [p], g.expected⟩
          answer found missing (violated ++ [p]) hp hv', ?_⟩
        rw [← h'.1]
        apply max_le_max (le_refl 0)
        apply min_le_min (le_refl 100)
        have hlen : ((violated ++ [p]).length : ℚ) = (violated.length : ℚ) + 1 := by
          rw [List.length_append]
          push_cast
          norm_num
        rw [hlen]
        linarith

/-- Witness for C8 at concrete inputs, on both scorers. -/
theorem c8_penalite_monotone_temoin :
    (estInclusDans (normaliser_texte "mauvais").data
        (normaliser_texte "tres mauvais").data = true ∧
      (evaluer_reponse_local (fun _ _ => 1 / 2) extraire_mots_cles_basic
        ⟨"x", [], [] ++ ["mauvais"]⟩ "tres mauvais").score ≤
        (evaluer_reponse_local (fun _ _ => 1 / 2) extraire_mots_cles_basic
          ⟨"x", [], []⟩ "tres mauvais").score) ∧
    (grade reConcret (fun _ _ => 0) ⟨[], [], ""⟩ "mauvais" =
        .ok (0, ⟨0, [], [], [], 0⟩) ∧
      check_point reConcret (.chaine "mauvais") "mauvais" = .ok true ∧
      ∃ s' fb', grade reConcret (fun _ _ => 0)
          ⟨[], [] ++ [.chaine "mauvais"], ""⟩ "mauvais" = .ok (s', fb') ∧
        s' ≤ 0) := by
  have hg : grade reConcret (fun _ _ => (0 : ℚ)) ⟨[], [], ""⟩ "mauvais" =
      .ok (0, ⟨0, [], [], [], 0⟩) := by
    rw [grade_eq_ok reConcret (fun _ _ => (0 : ℚ)) ⟨[], [], ""⟩ "mauvais"
      [] [] [] rfl rfl]
    have ha : arrondi2 (0 : ℚ) = 0 := by
      rw [arrondi2_eval 0 (by norm_num) (by norm_num)]
      norm_num
    norm_num [ha]
  have hc : check_point reConcret (.chaine "mauvais") "mauvais" = .ok true := by
    decide
  refine ⟨⟨by decide, c8_penalite_monotone.1 (fun _ _ => 1 / 2)
      extraire_mots_cles_basic ⟨"x", [], []⟩ "tres mauvais" "mauvais"
      (by decide)⟩,
    hg, hc, c8_penalite_monotone.2 reConcret (fun _ _ => 0) ⟨[], [], ""⟩
      "mauvais" (.chaine "mauvais") 0 ⟨0, [], [], [], 0⟩ hg hc⟩

/-! ## The router and the remote path -/

/-- C3.  The evaluation router is a total function (it never raises to its
caller): when the remote capability is unconfigured, and when the configured
remote attempt fails with any error, it returns exactly the result the local
pipeline alone produces for the same rubric and answer, together with a
context marker that names the local path (both markers contain "local" as a
substring). -/
theorem c3_routeur_repli_local :
    (∀ (sim : String → String → ℚ) (kw : String → Finset String)
        (question_data : QuestionData) (reponse_user : String),
      evaluer_reponse sim kw none question_data reponse_user =
        (evaluer_reponse_local sim kw question_data reponse_user,
         "Mode local (Gemini non configuré).")) ∧
    (∀ (sim : String → String → ℚ) (kw : String → Finset String)
        (question_data : QuestionData) (reponse_user e : String),
      evaluer_reponse sim kw (some (.error e)) question_data reponse_user =
        (evaluer_reponse_local sim kw question_data reponse_user,
         "Erreur Gemini (" ++ e ++ ") - Mode local utilisé.")) ∧
    (∀ e : String, estInclusDans "local".data
      ("Erreur Gemini (" ++ e ++ ") - Mode local utilisé.").data = true) ∧
    estInclusDans "local".data "Mode local (Gemini non configuré).".data = true := by
  refine ⟨fun _ _ _ _ => rfl, fun _ _ _ _ _ => rfl, ?_, by decide⟩
  intro e
  apply (estInclusDans_iff _ _).mpr
  refine ⟨("Erreur Gemini (" ++ e).data ++ ") - Mode ".data,
    " utilisé.".data, ?_⟩
  have h1 : ("Erreur Gemini (" ++ e ++ ") - Mode local utilisé.").data =
      ("Erreur Gemini (" ++ e).data ++ ") - Mode local utilisé.".data := rfl
  have h2 : (") - Mode local utilisé.".data : List Char) =
      ") - Mode ".data ++ ("local".data ++ " utilisé.".data) := by decide
  rw [h1, h2]
  simp [List.append_assoc]

/-- C6.  Every remote response that parses as a JSON object yields a
well-formed result: each missing optional key is filled with its safe
default (score 0, similarity 0, empty list for each list field, `est_correct`
derived as `score ≥ 60`, and a fixed suggestion line), and the parsed object
is always returned successfully; the remote path raises exactly when the
response does not parse as a usable JSON object. -/
theorem c6_defauts_de_la_reponse_distante :
    (∀ (j : GeminiJson) (prompt : String),
      evaluer_reponse_gemini (some j) prompt =
        .ok ({ est_correct := j.est_correct.getD (decide (60 ≤ j.score.getD 0))
             , score := j.score.getD 0
             , similarite := j.similarite.getD 0
             , elements_presents := j.elements_presents.getD []
             , elements_partiels := j.elements_partiels.getD []
             , elements_absents := j.elements_absents.getD []
             , erreurs_detectees := j.erreurs_detectees.getD []
             , suggestions := j.suggestions.getD
                 ["Analyse effectuée par Gemini."] },
          prompt)) ∧
    (∀ prompt : String, evaluer_reponse_gemini none prompt =
      .error "Erreur parsing JSON de Gemini.") :=
  ⟨fun _ _ => rfl, fun _ => rfl⟩

/-- C10.  When the parsed remote object lacks the `est_correct` key, the
returned flag is derived from the score value as supplied (or 0 when the
score key is absent as well); in particular, an object carrying neither key
yields score 0 and `est_correct = false`. -/
theorem c10_defaut_est_correct (j : GeminiJson) (h : j.est_correct = none) :
    (appliquer_defauts j).est_correct = decide (60 ≤ j.score.getD 0) ∧
    (j.score = none →
      (appliquer_defauts j).score = 0 ∧
      (appliquer_defauts j).est_correct = false) := by
  constructor
  · rw [show (appliquer_defauts j).est_correct =
      j.est_correct.getD (decide (60 ≤ j.score.getD 0)) from rfl, h]
    rfl
  · intro hs
    constructor
    · rw [show (appliquer_defauts j).score = j.score.getD 0 from rfl, hs]
      rfl
    · rw [show (appliquer_defauts j).est_correct =
        j.est_correct.getD (decide (60 ≤ j.score.getD 0)) from rfl, h, hs]
      rfl

/-- Witness for C10 on the object with neither `score` nor `est_correct`. -/
theorem c10_defaut_est_correct_temoin :
    (⟨none, none, none, none, none, none, none, none⟩ : GeminiJson).est_correct
        = none ∧
    ((appliquer_defauts
        ⟨none, none, none, none, none, none, none, none⟩).est_correct =
      decide (60 ≤ (⟨none, none, none, none, none, none, none, none⟩ :
        GeminiJson).score.getD 0)) ∧
    (⟨none, none, none, none, none, none, none, none⟩ : GeminiJson).score
        = none ∧
    ((appliquer_defauts
        ⟨none, none, none, none, none, none, none, none⟩).score = 0 ∧
      (appliquer_defauts
        ⟨none, none, none, none, none, none, none, none⟩).est_correct = false) :=
  ⟨rfl, (c10_defaut_est_correct _ rfl).1, rfl,
    (c10_defaut_est_correct _ rfl).2 rfl⟩

/-! ## Malformed rubric points -/

/-- C5 (amended).  `BaselineGrader._check_point` treats a point of unknown
kind as a non-match and never raises, and never raises on a plain-string
point; but a regex point whose pattern does not compile raises `re.error`
(the error propagates) instead of being treated as a non-match. -/
theorem c5_points_malformes :
    (∀ (pyre : ReModule) (text : String),
      check_point pyre .inconnu text = .ok false) ∧
    (∀ (pyre : ReModule) (s text : String),
      ∃ b, check_point pyre (.chaine s) text = .ok b) ∧
    (∀ (pyre : ReModule) (v text : String), pyre.valid v = false →
      check_point pyre (.regex v) text = .error "re.error") := by
  refine ⟨fun _ _ => rfl, fun _ s text => ⟨_, rfl⟩, fun pyre v text hv => ?_⟩
  simp [check_point, hv]

/-- Witness for C5: the unknown kind and a plain string are non-raising, and
the concrete invalid pattern "(" raises. -/
theorem c5_points_malformes_temoin :
    check_point reConcret .inconnu "abc" = .ok false ∧
    (∃ b, check_point reConcret (.chaine "x") "abc" = .ok b) ∧
    (reConcret.valid "(" = false ∧
      check_point reConcret (.regex "(") "abc" = .error "re.error") :=
  ⟨c5_points_malformes.1 reConcret "abc",
    c5_points_malformes.2.1 reConcret "x" "abc",
    by decide,
    c5_points_malformes.2.2 reConcret "(" "abc" (by decide)⟩

/-- C5 is refuted as stated: Python's `re.compile` rejects the pattern "("
(`re.error: missing ), unterminated subpattern`), and `_check_point`
propagates the error on such a regex point instead of treating it as a
non-match. -/
theorem c5_contre_exemple :
    check_point reConcret (.regex "(") "une réponse" = .error "re.error" ∧
    check_point reConcret (.regex "(") "une réponse" ≠ .ok false := by
  constructor
  · decide
  · decide

end Projet
